import Mathlib

/-!
Verification of the multidb master/slave routing core
(`multidb/__init__.py`).

The embedding models the module-level state of `SlavesProcessor` as an
explicit `State` value.  The Python `slaves_statistics` dict (keyed by the
configured slave aliases, insertion order preserved) becomes an
association list; a missing `reconnect` key becomes `none`; timestamps
become natural numbers counting seconds from process start; the
`itertools.cycle` / `itertools.repeat` iterator stored in `cls.slaves`
becomes a list of aliases plus a cursor, the empty list standing for
`itertools.repeat(DEFAULT_DB_ALIAS)`.  A raised `KeyError` is modelled by
an error flag (the Python mutations performed before the raise are kept
in the returned state).  The connectivity probe
(`connections[alias].cursor()`) is an external collaborator and enters as
a boolean-valued oracle.  The backoff value `RECONNECT_TIME` is kept as a
parameter `rt` of the operations; the module computes it as
`60 * settings.RECONNECT_TIME` seconds with the setting defaulting to 60.
-/

/-- Per-replica record held in `slaves_statistics`: the `available` flag
and the optional `reconnect` timestamp (`none` models an absent key). -/
structure ReplicaStat where
  available : Bool
  reconnect : Option Nat
  deriving DecidableEq, Repr

/-- `DEFAULT_DB_ALIAS` (the string default). -/
def DEFAULT_DB_ALIAS : String := "default"

/-- `UNIMAGINEABLE_FUTURE = datetime.datetime.now() + datetime.timedelta(days=365*1000)`,
with the import instant taken as time zero: 365000 days in seconds. -/
def UNIMAGINEABLE_FUTURE : Nat := 365000 * 86400

/-- the module computes `RECONNECT_TIME` as a timedelta of `60 * getattr(settings, RECONNECT_TIME, 60)` seconds,
as a function of the `RECONNECT_TIME` setting (in seconds). -/
def RECONNECT_TIME (setting : Nat) : Nat := 60 * setting

/-- The default value of the `RECONNECT_TIME` setting. -/
def RECONNECT_SETTING_DEFAULT : Nat := 60

/-- The module-level state of `SlavesProcessor`:
`slaves_statistics`, `next_refresh_available_time`, and the `slaves`
iterator (cycle list plus cursor; `cycle = []` models
`itertools.repeat(DEFAULT_DB_ALIAS)`). -/
structure State where
  stats : List (String × ReplicaStat)
  next_refresh_available_time : Nat
  cycle : List String
  cursor : Nat
  deriving DecidableEq, Repr

/-- Dictionary lookup `slaves_statistics[a]`: first entry with key `a`. -/
def lookupDb (a : String) : List (String × ReplicaStat) → Option ReplicaStat
  | [] => none
  | p :: r => if p.1 = a then some p.2 else lookupDb a r

/-- In-place mutation of the entry for key `a` (Python mutates the dict
value object; keys never change). -/
def updateDb (a : String) (st : ReplicaStat) (r : List (String × ReplicaStat)) :
    List (String × ReplicaStat) :=
  r.map (fun p => if p.1 = a then (a, st) else p)

/-- the filter of `slaves_statistics.keys()` by the per-entry `available` flag. -/
def availableKeys (r : List (String × ReplicaStat)) : List String :=
  (r.filter (fun p => p.2.available)).map Prod.fst

namespace SlavesProcessor

/-- `SlavesProcessor.reset_slave_databases`: rebuild `cls.slaves` as a
cycle over the available aliases, or `repeat(DEFAULT_DB_ALIAS)` when no
slave database is configured or none is available. -/
def reset_slave_databases (s : State) : State :=
  if s.stats.isEmpty then { s with cycle := [], cursor := 0 }
  else if (availableKeys s.stats).isEmpty then { s with cycle := [], cursor := 0 }
  else { s with cycle := availableKeys s.stats, cursor := 0 }

/-- `cls.slaves.next()`: the element under the cursor of the cycle
(advancing it), or `DEFAULT_DB_ALIAS` forever when the iterator is
`repeat(DEFAULT_DB_ALIAS)`. -/
def cycleNext (s : State) : String × State :=
  if s.cycle.isEmpty then (DEFAULT_DB_ALIAS, s)
  else (s.cycle.getD (s.cursor % s.cycle.length) DEFAULT_DB_ALIAS,
        { s with cursor := s.cursor + 1 })

/-- `SlavesProcessor.disable_connection(alias)` at time `now` with backoff
`rt`.  `slaves_statistics[alias]` raises `KeyError` when `alias` is not a
configured slave (error flag `true`, nothing mutated); otherwise the
entry gets `reconnect = now + rt`, `available = False`, the cycle is
rebuilt and `next_refresh_available_time` is lowered to the new
reconnect time. -/
def disable_connection (rt now : Nat) (al : String) (s : State) : State × Bool :=
  match lookupDb al s.stats with
  | none => (s, true)
  | some _ =>
    let s1 := { s with stats := updateDb al ⟨false, some (now + rt)⟩ s.stats }
    let s2 := reset_slave_databases s1
    ({ s2 with next_refresh_available_time :=
        Nat.min s2.next_refresh_available_time (now + rt) }, false)

/-- The `for statistics in cls.slaves_statistics.values()` loop of
`refresh_available`, threading the local `next_refresh` accumulator.
Reading the `reconnect` key of an entry that has none raises
`KeyError`: the error flag is set and the remaining entries are left
untouched (mutations already performed are kept). -/
def refreshLoop (now : Nat) :
    List (String × ReplicaStat) → Nat → List (String × ReplicaStat) × Nat × Bool
  | [], acc => ([], acc, false)
  | p :: rest, acc =>
    if p.2.available = false then
      match p.2.reconnect with
      | none => (p :: rest, acc, true)
      | some rc =>
        if rc < now then
          let t := refreshLoop now rest acc
          ((p.1, ⟨true, some UNIMAGINEABLE_FUTURE⟩) :: t.1, t.2)
        else
          let t := refreshLoop now rest (Nat.min acc rc)
          (p :: t.1, t.2)
    else
      match p.2.reconnect with
      | none => (p :: rest, acc, true)
      | some rc =>
        let t := refreshLoop now rest (Nat.min acc rc)
        (p :: t.1, t.2)

/-- `SlavesProcessor.refresh_available` at time `now`.
`cls.next_refresh_available_time` is first reset to the sentinel, the loop
re-admits every unavailable entry whose `reconnect` is strictly in the
past (giving it the sentinel as reconnect time), accumulating the minimum
`reconnect` of the other entries; on success the cycle is rebuilt and the
deadline set to `min(sentinel, accumulator)`.  A `KeyError` inside the
loop aborts before the rebuild, leaving the deadline at the sentinel. -/
def refresh_available (now : Nat) (s : State) : State × Bool :=
  let s1 := { s with next_refresh_available_time := UNIMAGINEABLE_FUTURE }
  let t := refreshLoop now s1.stats UNIMAGINEABLE_FUTURE
  if t.2.2 then ({ s1 with stats := t.1 }, true)
  else
    let s2 := reset_slave_databases { s1 with stats := t.1 }
    ({ s2 with next_refresh_available_time :=
        Nat.min UNIMAGINEABLE_FUTURE t.2.1 }, false)

/-- The guard `if datetime.datetime.now() > cls.next_refresh_available_time:
cls.refresh_available()` at the top of `get_slave`. -/
def maybe_refresh (now : Nat) (s : State) : State × Bool :=
  if s.next_refresh_available_time < now then refresh_available now s else (s, false)

/-- `SlavesProcessor.get_slave` at time `now` with backoff `rt` and
connectivity-probe oracle `probe` (`connections[alias].cursor()`
succeeding or raising).  A `KeyError` escaping `refresh_available` or
`disable_connection` propagates to the caller as an error result; a probe
failure is caught, the candidate is disabled and `DEFAULT_DB_ALIAS`
returned. -/
def get_slave (rt now : Nat) (probe : String → Bool) (s : State) :
    State × Except String String :=
  let r := maybe_refresh now s
  if r.2 then (r.1, Except.error "KeyError: reconnect")
  else
    let c := cycleNext r.1
    if probe c.1 then (c.2, Except.ok c.1)
    else
      let d := disable_connection rt now c.1 c.2
      if d.2 then (d.1, Except.error "KeyError: missing alias")
      else (d.1, Except.ok DEFAULT_DB_ALIAS)

end SlavesProcessor

/-- The module-level initialisation: `slaves_statistics` built from
`settings.SLAVE_DATABASES` with every entry available and carrying no `reconnect` key, `next_refresh_available_time` at the sentinel, and
`SlavesProcessor.reset_slave_databases()` run once at import. -/
def initState (cfg : List String) : State :=
  SlavesProcessor.reset_slave_databases
    { stats := cfg.map (fun db => (db, ⟨true, none⟩)),
      next_refresh_available_time := UNIMAGINEABLE_FUTURE,
      cycle := [], cursor := 0 }

namespace PinningMasterSlaveRouter

/-- `PinningMasterSlaveRouter.db_for_read`: `DEFAULT_DB_ALIAS` if
`this_thread_is_pinned()` (an external flag, passed as `pinned`), else
`SlavesProcessor.get_slave()`. -/
def db_for_read (pinned : Bool) (rt now : Nat) (probe : String → Bool) (s : State) :
    State × Except String String :=
  if pinned then (s, Except.ok DEFAULT_DB_ALIAS)
  else SlavesProcessor.get_slave rt now probe s

end PinningMasterSlaveRouter

/-- Spec-side definition, following the words of the claim: the minimum
`reconnectAt` over the currently-unavailable replicas, or the unbounded
sentinel when none is unavailable. -/
def minDeadline (r : List (String × ReplicaStat)) : Nat :=
  r.foldr
    (fun p acc => if p.2.available then acc else Nat.min (p.2.reconnect.getD 0) acc)
    UNIMAGINEABLE_FUTURE

/-- A sequence of `get_slave` calls, each with its own time and probe
oracle, returning the list of results and the final state. -/
def runCalls (rt : Nat) : List (Nat × (String → Bool)) → State → List (Except String String) × State
  | [], s => ([], s)
  | c :: cs, s =>
    let r := SlavesProcessor.get_slave rt c.1 c.2 s
    let t := runCalls rt cs r.1
    (r.2 :: t.1, t.2)

/-- States reachable from the module-level initial state by the mutating
operations of `SlavesProcessor`. -/
inductive Reachable (rt : Nat) : State → Prop
  | init (cfg : List String) : Reachable rt (initState cfg)
  | disable (s : State) (now : Nat) (al : String) :
      Reachable rt s → Reachable rt (SlavesProcessor.disable_connection rt now al s).1
  | refresh (s : State) (now : Nat) :
      Reachable rt s → Reachable rt (SlavesProcessor.refresh_available now s).1
  | get (s : State) (now : Nat) (probe : String → Bool) :
      Reachable rt s → Reachable rt (SlavesProcessor.get_slave rt now probe s).1

/-- The state of Scenario A after the probe for `r1` fails at time 0
(backoff 60 seconds, i.e. `RECONNECT_TIME` setting 1). -/
def scenarioA1 : State :=
  (SlavesProcessor.get_slave (RECONNECT_TIME 1) 0 (fun a => !(a == "r1"))
    (initState ["r1", "r2"])).1

/-- The state of Scenario A after the successful call at time 10. -/
def scenarioA2 : State :=
  (SlavesProcessor.get_slave (RECONNECT_TIME 1) 10 (fun _ => true) scenarioA1).1

/-- The C4 trace: disable `r1` at time 0 and `r2` at time 60 (backoff 60
seconds), then call `refresh_available` at time 61 — legitimately, since
the recorded deadline 60 has passed.  The refresh aborts with a
`KeyError` on the never-disabled replica `r3`. -/
def c4Trace : State :=
  (SlavesProcessor.disable_connection (RECONNECT_TIME 1) 60 "r2"
    ((SlavesProcessor.disable_connection (RECONNECT_TIME 1) 0 "r1"
      (initState ["r1", "r2", "r3"])).1)).1

def refreshEntry (now : Nat) (p : String × ReplicaStat) : String × ReplicaStat :=
  if p.2.available = false ∧ p.2.reconnect.getD 0 < now
  then (p.1, ⟨true, some UNIMAGINEABLE_FUTURE⟩) else p

/-- Every entry carries a recorded reconnect time, available entries
carry the sentinel and unavailable ones a bounded time: the states on
which a refresh completes without a `KeyError`. -/
def FullyKeyed (s : State) : Prop :=
  ∀ p ∈ s.stats, ∃ rc, p.2.reconnect = some rc ∧
    (p.2.available = true → rc = UNIMAGINEABLE_FUTURE) ∧
    (p.2.available = false → rc < UNIMAGINEABLE_FUTURE)

/-- The implicit invariant of C10: an available replica either has no
recorded reconnect time or carries the sentinel. -/
def AvailInv (s : State) : Prop :=
  ∀ p ∈ s.stats, p.2.available = true →
    p.2.reconnect = none ∨ p.2.reconnect = some UNIMAGINEABLE_FUTURE

/-! ## Basic lemmas about the state operations -/

theorem reset_stats (s : State) : (SlavesProcessor.reset_slave_databases s).stats = s.stats := by
  unfold SlavesProcessor.reset_slave_databases
  split
  · rfl
  · split <;> rfl

theorem reset_nrt (s : State) :
    (SlavesProcessor.reset_slave_databases s).next_refresh_available_time
      = s.next_refresh_available_time := by
  unfold SlavesProcessor.reset_slave_databases
  split
  · rfl
  · split <;> rfl

theorem reset_cycle (s : State) :
    (SlavesProcessor.reset_slave_databases s).cycle = availableKeys s.stats := by
  unfold SlavesProcessor.reset_slave_databases
  split
  · rename_i h
    simp only [List.isEmpty_iff] at h
    simp [availableKeys, h]
  · split
    · rename_i h
      simp only [List.isEmpty_iff] at h
      simp [h]
    · rfl

theorem cycleNext_stats (s : State) : (SlavesProcessor.cycleNext s).2.stats = s.stats := by
  unfold SlavesProcessor.cycleNext
  split <;> rfl

theorem cycleNext_cycle (s : State) : (SlavesProcessor.cycleNext s).2.cycle = s.cycle := by
  unfold SlavesProcessor.cycleNext
  split <;> rfl

theorem lookup_updateDb_self (a : String) (st : ReplicaStat) (r : List (String × ReplicaStat)) :
    lookupDb a (updateDb a st r) = (lookupDb a r).map (fun _ => st) := by
  induction r with
  | nil => rfl
  | cons p rest ih =>
    by_cases h : p.1 = a
    · simp [updateDb, lookupDb, h]
    · simp only [updateDb, List.map_cons, if_neg h, lookupDb]
      simpa [updateDb] using ih

theorem lookup_updateDb_ne (a b : String) (st : ReplicaStat) (r : List (String × ReplicaStat))
    (h : a ≠ b) : lookupDb b (updateDb a st r) = lookupDb b r := by
  induction r with
  | nil => rfl
  | cons p rest ih =>
    by_cases hp : p.1 = a
    · simp only [updateDb, List.map_cons, if_pos hp, lookupDb]
      rw [if_neg h, if_neg (hp ▸ h : ¬ p.1 = b)]
      exact ih
    · simp only [updateDb, List.map_cons, if_neg hp, lookupDb]
      by_cases hb : p.1 = b
      · rw [if_pos hb, if_pos hb]
      · rw [if_neg hb, if_neg hb]
        exact ih

theorem keys_updateDb (a : String) (st : ReplicaStat) (r : List (String × ReplicaStat)) :
    (updateDb a st r).map Prod.fst = r.map Prod.fst := by
  induction r with
  | nil => rfl
  | cons p rest ih =>
    by_cases h : p.1 = a
    · simp only [updateDb, List.map_cons, if_pos h] at *
      simp [ih, h]
    · simp only [updateDb, List.map_cons, if_neg h] at *
      simp [ih]

theorem lookup_some_mem (a : String) (st : ReplicaStat) (r : List (String × ReplicaStat))
    (h : lookupDb a r = some st) : (a, st) ∈ r := by
  induction r with
  | nil => simp [lookupDb] at h
  | cons p rest ih =>
    simp only [lookupDb] at h
    by_cases hp : p.1 = a
    · rw [if_pos hp] at h
      have : p = (a, st) := by
        cases p
        simp only [Option.some.injEq] at h
        simp_all
      simp [this]
    · rw [if_neg hp] at h
      exact List.mem_cons_of_mem _ (ih h)

theorem mem_availableKeys (a : String) (st : ReplicaStat) (r : List (String × ReplicaStat))
    (hm : (a, st) ∈ r) (hav : st.available = true) : a ∈ availableKeys r := by
  unfold availableKeys
  exact List.mem_map.mpr ⟨(a, st), List.mem_filter.mpr ⟨hm, by simp [hav]⟩, rfl⟩

theorem not_mem_availableKeys (a : String) (st : ReplicaStat) (r : List (String × ReplicaStat))
    (hnd : (r.map Prod.fst).Nodup) (h : lookupDb a r = some st) (hav : st.available = false) :
    a ∉ availableKeys r := by
  induction r with
  | nil => simp [availableKeys]
  | cons p rest ih =>
    simp only [List.map_cons, List.nodup_cons] at hnd
    simp only [lookupDb] at h
    intro hmem
    rcases List.mem_map.mp hmem with ⟨q, hq, hqa⟩
    rcases List.mem_filter.mp hq with ⟨hqm, hqav⟩
    by_cases hp : p.1 = a
    · rw [if_pos hp] at h
      have hst : p.2 = st := by simpa using h
      rcases List.mem_cons.mp hqm with hq1 | hq2
      · subst hq1
        rw [hst, hav] at hqav
        simp at hqav
      · have hmm : a ∈ rest.map Prod.fst := List.mem_map.mpr ⟨q, hq2, hqa⟩
        rw [hp] at hnd
        exact hnd.1 hmm
    · rw [if_neg hp] at h
      rcases List.mem_cons.mp hqm with hq1 | hq2
      · subst hq1
        exact hp (by simpa using hqa)
      · exact ih hnd.2 h (List.mem_map.mpr ⟨q, List.mem_filter.mpr ⟨hq2, hqav⟩, hqa⟩)

theorem disable_found (rt now : Nat) (al : String) (s : State) (st : ReplicaStat)
    (h : lookupDb al s.stats = some st) :
    SlavesProcessor.disable_connection rt now al s =
      ({ SlavesProcessor.reset_slave_databases
           { s with stats := updateDb al ⟨false, some (now + rt)⟩ s.stats } with
         next_refresh_available_time :=
           Nat.min s.next_refresh_available_time (now + rt) }, false) := by
  unfold SlavesProcessor.disable_connection
  rw [h]
  simp only [reset_nrt]

theorem disable_found_stats (rt now : Nat) (al : String) (s : State) (st : ReplicaStat)
    (h : lookupDb al s.stats = some st) :
    ((SlavesProcessor.disable_connection rt now al s).1).stats
      = updateDb al ⟨false, some (now + rt)⟩ s.stats := by
  rw [disable_found rt now al s st h]
  simp [reset_stats]

theorem disable_found_cycle (rt now : Nat) (al : String) (s : State) (st : ReplicaStat)
    (h : lookupDb al s.stats = some st) :
    ((SlavesProcessor.disable_connection rt now al s).1).cycle
      = availableKeys (updateDb al ⟨false, some (now + rt)⟩ s.stats) := by
  rw [disable_found rt now al s st h]
  simp [reset_cycle]

theorem disable_found_err (rt now : Nat) (al : String) (s : State) (st : ReplicaStat)
    (h : lookupDb al s.stats = some st) :
    (SlavesProcessor.disable_connection rt now al s).2 = false := by
  rw [disable_found rt now al s st h]

theorem disable_notfound (rt now : Nat) (al : String) (s : State)
    (h : lookupDb al s.stats = none) :
    SlavesProcessor.disable_connection rt now al s = (s, true) := by
  unfold SlavesProcessor.disable_connection
  rw [h]

/-- Claim C5 (amended): with the backoff setting left at its default,
`disable_connection` sets the reconnect time of the replica to
`now + 3600` seconds, not `now + 60`: the module multiplies the setting
(default 60) by 60 seconds. -/
theorem c5_default_backoff (now : Nat) (al : String) (s : State) (st : ReplicaStat)
    (h : lookupDb al s.stats = some st) :
    lookupDb al ((SlavesProcessor.disable_connection
        (RECONNECT_TIME RECONNECT_SETTING_DEFAULT) now al s).1).stats
      = some ⟨false, some (now + 3600)⟩ := by
  rw [disable_found_stats _ now al s st h, lookup_updateDb_self, h]
  rfl

/-- Claim C5 witness: the amended default-backoff theorem at a concrete state. -/
theorem c5_default_backoff_w :
    lookupDb "s1" ((SlavesProcessor.disable_connection
        (RECONNECT_TIME RECONNECT_SETTING_DEFAULT) 0 "s1" (initState ["s1"])).1).stats
      = some ⟨false, some (0 + 3600)⟩ :=
  c5_default_backoff 0 "s1" (initState ["s1"]) ⟨true, none⟩ (by decide)

/-- Claim C5 counterexample: the claim says the default backoff is 60 seconds;
in the code `RECONNECT_TIME` with the setting at its default is 3600
seconds, and disabling at time 0 records reconnect time 3600, not 60. -/
theorem c5_default_backoff_cex :
    RECONNECT_TIME RECONNECT_SETTING_DEFAULT ≠ 60 ∧
    lookupDb "s1" ((SlavesProcessor.disable_connection
        (RECONNECT_TIME RECONNECT_SETTING_DEFAULT) 0 "s1" (initState ["s1"])).1).stats
      ≠ some ⟨false, some (0 + 60)⟩ := by decide

/-- Claim C8: the pinning router routes a read to `DEFAULT_DB_ALIAS` whenever
the calling context is pinned, regardless of the registry and cycle
state, and otherwise returns exactly what `SlavesProcessor.get_slave`
returns. -/
theorem c8_pinning_route (rt now : Nat) (probe : String → Bool) (s : State) :
    PinningMasterSlaveRouter.db_for_read true rt now probe s = (s, Except.ok DEFAULT_DB_ALIAS) ∧
    PinningMasterSlaveRouter.db_for_read false rt now probe s
      = SlavesProcessor.get_slave rt now probe s :=
  ⟨rfl, rfl⟩

theorem maybe_refresh_skip (now : Nat) (s : State)
    (h : ¬ s.next_refresh_available_time < now) :
    SlavesProcessor.maybe_refresh now s = (s, false) := by
  unfold SlavesProcessor.maybe_refresh
  rw [if_neg h]

theorem cycleNext_empty (s : State) (h : s.cycle = []) :
    SlavesProcessor.cycleNext s = (DEFAULT_DB_ALIAS, s) := by
  unfold SlavesProcessor.cycleNext
  rw [if_pos (by simp [h])]

/-- Claim C9: when the cycle has degraded to repeating the primary alias,
`get_slave` still probes the primary connection; on probe failure the
handler calls `disable_connection DEFAULT_DB_ALIAS`, whose dictionary
lookup finds no entry (only slave aliases are keys), so the call raises
a `KeyError` instead of returning an identifier. -/
theorem c9_primary_probe_keyerror (rt now : Nat) (probe : String → Bool) (s : State)
    (hcy : s.cycle = []) (hre : ¬ s.next_refresh_available_time < now)
    (hd : lookupDb DEFAULT_DB_ALIAS s.stats = none)
    (hp : probe DEFAULT_DB_ALIAS = false) :
    (SlavesProcessor.cycleNext s).1 = DEFAULT_DB_ALIAS ∧
    SlavesProcessor.get_slave rt now probe s = (s, Except.error "KeyError: missing alias") := by
  have hcn := cycleNext_empty s hcy
  refine ⟨by rw [hcn], ?_⟩
  unfold SlavesProcessor.get_slave
  rw [maybe_refresh_skip now s hre]
  simp only [hcn, hp, disable_notfound rt now DEFAULT_DB_ALIAS s hd, Bool.false_eq_true,
    if_false, if_true]

/-- Claim C9 witness: a state with the single slave disabled, an empty cycle
and a failing primary probe. -/
theorem c9_primary_probe_keyerror_w :
    SlavesProcessor.get_slave 3600 1 (fun _ => false)
        ⟨[("s1", ⟨false, some 3600⟩)], 3600, [], 0⟩
      = (⟨[("s1", ⟨false, some 3600⟩)], 3600, [], 0⟩, Except.error "KeyError: missing alias") :=
  (c9_primary_probe_keyerror 3600 1 (fun _ => false) ⟨[("s1", ⟨false, some 3600⟩)], 3600, [], 0⟩
    rfl (by decide) (by decide) rfl).2

/-- Claim C1 counterexample: with a single configured replica that has been
disabled (so no replica is available), a `get_slave` call whose primary
probe fails raises a `KeyError` instead of returning `DEFAULT_DB_ALIAS`:
the claim that no error is ever raised in the total-outage state is
false. -/
theorem c1_total_outage_cex :
    availableKeys ((SlavesProcessor.disable_connection 3600 0 "s1" (initState ["s1"])).1).stats
      = [] ∧
    (SlavesProcessor.get_slave 3600 1 (fun _ => false)
        ((SlavesProcessor.disable_connection 3600 0 "s1" (initState ["s1"])).1)).2
      = Except.error "KeyError: missing alias" :=
  ⟨by decide, rfl⟩

/-- Claim C1 (amended): in a state where no replica is available (so the cycle
has degraded to repeating the primary), provided no refresh is due and
the probe of the primary connection succeeds, `get_slave` returns
`DEFAULT_DB_ALIAS` and leaves the state unchanged — hence arbitrarily
many such calls all return `DEFAULT_DB_ALIAS` without error. -/
theorem c1_total_outage (rt now : Nat) (probe : String → Bool) (s : State)
    (_hav : availableKeys s.stats = []) (hcy : s.cycle = [])
    (hre : ¬ s.next_refresh_available_time < now)
    (hp : probe DEFAULT_DB_ALIAS = true) :
    SlavesProcessor.get_slave rt now probe s = (s, Except.ok DEFAULT_DB_ALIAS) ∧
    ∀ n : Nat, (fun t => (SlavesProcessor.get_slave rt now probe t).1)^[n] s = s := by
  have h1 : SlavesProcessor.get_slave rt now probe s = (s, Except.ok DEFAULT_DB_ALIAS) := by
    unfold SlavesProcessor.get_slave
    rw [maybe_refresh_skip now s hre]
    simp only [cycleNext_empty s hcy, hp, Bool.false_eq_true, if_false, if_true]
  refine ⟨h1, fun n => Function.iterate_fixed ?_ n⟩
  rw [h1]

/-- Claim C1 witness: the amended total-outage theorem at the concrete state
reached by disabling the only configured replica. -/
theorem c1_total_outage_w :
    SlavesProcessor.get_slave 3600 1 (fun _ => true)
        ((SlavesProcessor.disable_connection 3600 0 "s1" (initState ["s1"])).1)
      = ((SlavesProcessor.disable_connection 3600 0 "s1" (initState ["s1"])).1,
         Except.ok DEFAULT_DB_ALIAS) :=
  (c1_total_outage 3600 1 (fun _ => true)
    ((SlavesProcessor.disable_connection 3600 0 "s1" (initState ["s1"])).1)
    (by decide) (by decide) (by decide) rfl).1

/-- Claim C6 counterexample: with zero replicas configured, the drawn candidate
is the primary and a failing probe makes the call raise a `KeyError`
instead of returning the primary: the claim that a probe failure is
never surfaced as an error is false for this call. -/
theorem c6_probe_failure_cex :
    (SlavesProcessor.cycleNext (initState [])).1 = DEFAULT_DB_ALIAS ∧
    (SlavesProcessor.get_slave 3600 0 (fun _ => false) (initState [])).2
      = Except.error "KeyError: missing alias" :=
  ⟨rfl, rfl⟩

/-- Claim C6 (amended): for every `get_slave` call in which the refresh step
completes without error and the drawn candidate is a configured replica,
a probe failure is never surfaced: the call returns `DEFAULT_DB_ALIAS`
and the candidate is disabled with `reconnect = now + rt`. -/
theorem c6_probe_failure (rt now : Nat) (probe : String → Bool) (s s1 : State) (st : ReplicaStat)
    (h0 : SlavesProcessor.maybe_refresh now s = (s1, false))
    (hp : probe (SlavesProcessor.cycleNext s1).1 = false)
    (hl : lookupDb (SlavesProcessor.cycleNext s1).1 s1.stats = some st) :
    (SlavesProcessor.get_slave rt now probe s).2 = Except.ok DEFAULT_DB_ALIAS ∧
    lookupDb (SlavesProcessor.cycleNext s1).1 ((SlavesProcessor.get_slave rt now probe s).1).stats
      = some ⟨false, some (now + rt)⟩ := by
  have hl2 : lookupDb (SlavesProcessor.cycleNext s1).1
      ((SlavesProcessor.cycleNext s1).2).stats = some st := by
    rw [cycleNext_stats]; exact hl
  have hge : SlavesProcessor.get_slave rt now probe s =
      ((SlavesProcessor.disable_connection rt now (SlavesProcessor.cycleNext s1).1
          (SlavesProcessor.cycleNext s1).2).1, Except.ok DEFAULT_DB_ALIAS) := by
    unfold SlavesProcessor.get_slave
    rw [h0]
    simp only [hp, Bool.false_eq_true, if_false,
      disable_found_err rt now _ _ st hl2]
  rw [hge]
  refine ⟨rfl, ?_⟩
  rw [disable_found_stats rt now _ _ st hl2, lookup_updateDb_self, hl2]
  rfl

/-- Claim C6 witness: the amended probe-failure theorem at the initial
two-replica state, where the drawn candidate is the first replica. -/
theorem c6_probe_failure_w :
    (SlavesProcessor.get_slave 3600 0 (fun _ => false) (initState ["r1", "r2"])).2
      = Except.ok DEFAULT_DB_ALIAS ∧
    lookupDb (SlavesProcessor.cycleNext (initState ["r1", "r2"])).1
        ((SlavesProcessor.get_slave 3600 0 (fun _ => false) (initState ["r1", "r2"])).1).stats
      = some ⟨false, some (0 + 3600)⟩ :=
  c6_probe_failure 3600 0 (fun _ => false) (initState ["r1", "r2"]) (initState ["r1", "r2"])
    ⟨true, none⟩ (by decide) rfl (by decide)

/-- Claim C7: Scenario A on the code.  The probe failure at time 0 disables
`r1` with reconnect time 60 and the call at time 10 returns `r2`, as the
claim says; but the call at time 61 does not return `r1` or `r2`: the
refresh it triggers reads the missing `reconnect` key of the
never-disabled replica `r2` and raises a `KeyError`, which propagates to
the caller. -/
theorem c7_scenarioA :
    lookupDb "r1" scenarioA1.stats = some ⟨false, some 60⟩ ∧
    (SlavesProcessor.get_slave (RECONNECT_TIME 1) 10 (fun _ => true) scenarioA1).2
      = Except.ok "r2" ∧
    (SlavesProcessor.get_slave (RECONNECT_TIME 1) 61 (fun _ => true) scenarioA2).2
      = Except.error "KeyError: reconnect" :=
  ⟨by decide, rfl, rfl⟩

/-- Claim C4: the invariant fails on the code.  In the reachable state
`c4Trace` the deadline 60 is due at time 61, but the refresh aborts with
a `KeyError`, leaving `next_refresh_available_time` at the sentinel while
`r2` is still unavailable with reconnect time 120 — the minimum reconnect
time over unavailable replicas is 120, not the sentinel. -/
theorem c4_deadline_bug :
    c4Trace.next_refresh_available_time = 60 ∧
    (SlavesProcessor.refresh_available 61 c4Trace).2 = true ∧
    lookupDb "r2" ((SlavesProcessor.refresh_available 61 c4Trace).1).stats
      = some ⟨false, some 120⟩ ∧
    minDeadline ((SlavesProcessor.refresh_available 61 c4Trace).1).stats = 120 ∧
    ((SlavesProcessor.refresh_available 61 c4Trace).1).next_refresh_available_time
      = UNIMAGINEABLE_FUTURE ∧
    UNIMAGINEABLE_FUTURE ≠ 120 := by decide


theorem natMin_left {a b : Nat} (h : a ≤ b) : Nat.min a b = a := min_eq_left h

theorem natMin_assoc (a b c : Nat) : Nat.min (Nat.min a b) c = Nat.min a (Nat.min b c) :=
  min_assoc a b c

theorem minDeadline_nil : minDeadline [] = UNIMAGINEABLE_FUTURE := rfl

theorem minDeadline_cons (p : String × ReplicaStat) (r : List (String × ReplicaStat)) :
    minDeadline (p :: r) =
      if p.2.available then minDeadline r
      else Nat.min (p.2.reconnect.getD 0) (minDeadline r) := by
  unfold minDeadline
  simp [List.foldr_cons]

theorem minDeadline_le (r : List (String × ReplicaStat)) :
    minDeadline r ≤ UNIMAGINEABLE_FUTURE := by
  induction r with
  | nil => exact le_refl _
  | cons p rest ih =>
    rw [minDeadline_cons]
    split
    · exact ih
    · exact le_trans (Nat.min_le_right _ _) ih

theorem rl_nil (now acc : Nat) :
    SlavesProcessor.refreshLoop now [] acc = ([], acc, false) := rfl

theorem rl_cons_renew (now acc rc : Nat) (a : String) (rest : List (String × ReplicaStat))
    (hlt : rc < now) :
    SlavesProcessor.refreshLoop now ((a, ⟨false, some rc⟩) :: rest) acc =
      ((a, ⟨true, some UNIMAGINEABLE_FUTURE⟩) :: (SlavesProcessor.refreshLoop now rest acc).1,
       (SlavesProcessor.refreshLoop now rest acc).2) := by
  simp [SlavesProcessor.refreshLoop, hlt]

theorem rl_cons_wait (now acc rc : Nat) (a : String) (rest : List (String × ReplicaStat))
    (hlt : ¬ rc < now) :
    SlavesProcessor.refreshLoop now ((a, ⟨false, some rc⟩) :: rest) acc =
      ((a, ⟨false, some rc⟩) :: (SlavesProcessor.refreshLoop now rest (Nat.min acc rc)).1,
       (SlavesProcessor.refreshLoop now rest (Nat.min acc rc)).2) := by
  simp [SlavesProcessor.refreshLoop, hlt]

theorem rl_cons_avail (now acc rc : Nat) (a : String) (rest : List (String × ReplicaStat)) :
    SlavesProcessor.refreshLoop now ((a, ⟨true, some rc⟩) :: rest) acc =
      ((a, ⟨true, some rc⟩) :: (SlavesProcessor.refreshLoop now rest (Nat.min acc rc)).1,
       (SlavesProcessor.refreshLoop now rest (Nat.min acc rc)).2) := by
  simp [SlavesProcessor.refreshLoop]

theorem re_renew (now rc : Nat) (a : String) (hlt : rc < now) :
    refreshEntry now (a, ⟨false, some rc⟩) = (a, ⟨true, some UNIMAGINEABLE_FUTURE⟩) := by
  simp [refreshEntry, hlt]

theorem re_wait (now rc : Nat) (a : String) (hlt : ¬ rc < now) :
    refreshEntry now (a, ⟨false, some rc⟩) = (a, ⟨false, some rc⟩) := by
  simp [refreshEntry, hlt]

theorem re_avail (now rc : Nat) (a : String) :
    refreshEntry now (a, ⟨true, some rc⟩) = (a, ⟨true, some rc⟩) := by
  simp [refreshEntry]

theorem refreshLoop_spec (now : Nat) (r : List (String × ReplicaStat)) (acc : Nat)
    (hk : ∀ p ∈ r, ∃ rc, p.2.reconnect = some rc ∧
        (p.2.available = true → rc = UNIMAGINEABLE_FUTURE) ∧
        (p.2.available = false → rc < UNIMAGINEABLE_FUTURE))
    (hacc : acc ≤ UNIMAGINEABLE_FUTURE) :
    SlavesProcessor.refreshLoop now r acc =
      (r.map (refreshEntry now),
       Nat.min acc (minDeadline (r.map (refreshEntry now))), false) := by
  induction r generalizing acc with
  | nil =>
    rw [rl_nil, List.map_nil, minDeadline_nil, natMin_left hacc]
  | cons p rest ih =>
    obtain ⟨a, b, orc⟩ := p
    obtain ⟨rc, hrc, hav, hunav⟩ := hk (a, ⟨b, orc⟩) (List.mem_cons_self _ rest)
    simp only at hrc hav hunav
    subst hrc
    have hkr := fun q hq => hk q (List.mem_cons_of_mem _ hq)
    cases b with
    | false =>
      by_cases hlt : rc < now
      · rw [rl_cons_renew now acc rc a rest hlt, ih acc hkr hacc, List.map_cons,
          re_renew now rc a hlt, minDeadline_cons]
        simp
      · have hacc2 : Nat.min acc rc ≤ UNIMAGINEABLE_FUTURE :=
          le_trans (Nat.min_le_left _ _) hacc
        rw [rl_cons_wait now acc rc a rest hlt, ih (Nat.min acc rc) hkr hacc2, List.map_cons,
          re_wait now rc a hlt, minDeadline_cons]
        simp [natMin_assoc]
    | true =>
      have hfut : rc = UNIMAGINEABLE_FUTURE := hav rfl
      subst hfut
      rw [rl_cons_avail now acc UNIMAGINEABLE_FUTURE a rest, natMin_left hacc,
        ih acc hkr hacc, List.map_cons, re_avail, minDeadline_cons]
      simp

theorem natMin_right {a b : Nat} (h : b ≤ a) : Nat.min a b = b := min_eq_right h

theorem refreshEntry_fst (now : Nat) (p : String × ReplicaStat) :
    (refreshEntry now p).1 = p.1 := by
  unfold refreshEntry
  split <;> rfl

theorem refreshEntry_snd (now : Nat) (p : String × ReplicaStat) :
    (refreshEntry now p).2 =
      if p.2.available = false ∧ p.2.reconnect.getD 0 < now
      then ⟨true, some UNIMAGINEABLE_FUTURE⟩ else p.2 := by
  unfold refreshEntry
  split <;> rfl

theorem lookup_map_refreshEntry (now : Nat) (a : String) (r : List (String × ReplicaStat)) :
    lookupDb a (r.map (refreshEntry now)) =
      (lookupDb a r).map (fun st =>
        if st.available = false ∧ st.reconnect.getD 0 < now
        then ⟨true, some UNIMAGINEABLE_FUTURE⟩ else st) := by
  induction r with
  | nil => rfl
  | cons p rest ih =>
    simp only [List.map_cons, lookupDb, refreshEntry_fst]
    by_cases h : p.1 = a
    · rw [if_pos h, if_pos h, refreshEntry_snd]
      rfl
    · rw [if_neg h, if_neg h]
      exact ih

theorem refresh_available_success (now : Nat) (s : State) (hk : FullyKeyed s) :
    SlavesProcessor.refresh_available now s =
      ({ SlavesProcessor.reset_slave_databases
           { s with stats := s.stats.map (refreshEntry now),
                    next_refresh_available_time := UNIMAGINEABLE_FUTURE } with
         next_refresh_available_time := minDeadline (s.stats.map (refreshEntry now)) }, false) := by
  have key := refreshLoop_spec now s.stats UNIMAGINEABLE_FUTURE hk (le_refl _)
  simp only [SlavesProcessor.refresh_available, key, Bool.false_eq_true, if_false,
    natMin_right (minDeadline_le (s.stats.map (refreshEntry now)))]

/-- Claim C3 counterexample: a reachable state in which the refresh runs
(deadline 60 passed at time 65) and replica `r2` is unavailable with
`reconnectAt = 65 ≤ now = 65`, yet the code leaves `r2` unavailable: the
loop re-admits only entries with `reconnect` strictly below the current
time, so the claimed non-strict bound is false. -/
theorem c3_boundary_cex :
    ((SlavesProcessor.disable_connection 60 5 "r2"
        ((SlavesProcessor.disable_connection 60 0 "r1"
          (initState ["r1", "r2"])).1)).1).next_refresh_available_time = 60 ∧
    lookupDb "r2" ((SlavesProcessor.disable_connection 60 5 "r2"
        ((SlavesProcessor.disable_connection 60 0 "r1"
          (initState ["r1", "r2"])).1)).1).stats = some ⟨false, some 65⟩ ∧
    (SlavesProcessor.maybe_refresh 65 ((SlavesProcessor.disable_connection 60 5 "r2"
        ((SlavesProcessor.disable_connection 60 0 "r1"
          (initState ["r1", "r2"])).1)).1)).2 = false ∧
    lookupDb "r2" ((SlavesProcessor.maybe_refresh 65 ((SlavesProcessor.disable_connection 60 5 "r2"
        ((SlavesProcessor.disable_connection 60 0 "r1"
          (initState ["r1", "r2"])).1)).1)).1).stats = some ⟨false, some 65⟩ := by
  decide

/-- Claim C3 (amended): the refresh is a no-op unless `now` is strictly past
the recorded deadline; when it runs on a state in which every replica
carries a recorded reconnect time (available ones the sentinel), it
completes without error, re-admits exactly the unavailable replicas
whose `reconnectAt` is strictly below `now` (stamping them with the
sentinel), rebuilds the cycle from the updated available set, and sets
the deadline to the minimum reconnect time of the remaining unavailable
replicas (sentinel if none); in particular a replica disabled at a time
whose reconnect deadline is strictly below `now` is available and in the
cycle again after the refresh. -/
theorem c3_refresh_spec (now : Nat) (s : State) (hk : FullyKeyed s) :
    (¬ s.next_refresh_available_time < now →
      SlavesProcessor.maybe_refresh now s = (s, false)) ∧
    (s.next_refresh_available_time < now →
      (SlavesProcessor.maybe_refresh now s).2 = false ∧
      ((SlavesProcessor.maybe_refresh now s).1).stats = s.stats.map (refreshEntry now) ∧
      ((SlavesProcessor.maybe_refresh now s).1).cycle
        = availableKeys (((SlavesProcessor.maybe_refresh now s).1).stats) ∧
      ((SlavesProcessor.maybe_refresh now s).1).next_refresh_available_time
        = minDeadline (((SlavesProcessor.maybe_refresh now s).1).stats) ∧
      (∀ id d, lookupDb id s.stats = some ⟨false, some d⟩ → d < now →
        lookupDb id (((SlavesProcessor.maybe_refresh now s).1).stats)
          = some ⟨true, some UNIMAGINEABLE_FUTURE⟩ ∧
        id ∈ ((SlavesProcessor.maybe_refresh now s).1).cycle)) := by
  constructor
  · exact fun h => maybe_refresh_skip now s h
  · intro htr
    have hmr : SlavesProcessor.maybe_refresh now s = SlavesProcessor.refresh_available now s := by
      unfold SlavesProcessor.maybe_refresh
      rw [if_pos htr]
    rw [hmr, refresh_available_success now s hk]
    have hstats : ({ SlavesProcessor.reset_slave_databases
          { s with stats := s.stats.map (refreshEntry now),
                   next_refresh_available_time := UNIMAGINEABLE_FUTURE } with
        next_refresh_available_time :=
          minDeadline (s.stats.map (refreshEntry now)) } : State).stats
        = s.stats.map (refreshEntry now) := by
      simp [reset_stats]
    have hcyc : ({ SlavesProcessor.reset_slave_databases
          { s with stats := s.stats.map (refreshEntry now),
                   next_refresh_available_time := UNIMAGINEABLE_FUTURE } with
        next_refresh_available_time :=
          minDeadline (s.stats.map (refreshEntry now)) } : State).cycle
        = availableKeys (s.stats.map (refreshEntry now)) := by
      simp [reset_cycle]
    refine ⟨rfl, hstats, by rw [hcyc, hstats], by rw [hstats], ?_⟩
    intro id d hid hd
    have hlk : lookupDb id (s.stats.map (refreshEntry now))
        = some ⟨true, some UNIMAGINEABLE_FUTURE⟩ := by
      rw [lookup_map_refreshEntry, hid]
      simp [hd]
    refine ⟨by rw [hstats]; exact hlk, ?_⟩
    rw [hcyc]
    exact mem_availableKeys id ⟨true, some UNIMAGINEABLE_FUTURE⟩ _
      (lookup_some_mem id _ _ hlk) rfl

/-- Claim C3 witness: the amended refresh theorem at a concrete state with one
unavailable replica past its deadline and one available replica stamped
with the sentinel. -/
theorem c3_refresh_spec_w :
    lookupDb "r1" ((SlavesProcessor.maybe_refresh 61
        ⟨[("r1", ⟨false, some 60⟩), ("r2", ⟨true, some UNIMAGINEABLE_FUTURE⟩)], 60, ["r2"], 0⟩).1).stats
      = some ⟨true, some UNIMAGINEABLE_FUTURE⟩ ∧
    "r1" ∈ ((SlavesProcessor.maybe_refresh 61
        ⟨[("r1", ⟨false, some 60⟩), ("r2", ⟨true, some UNIMAGINEABLE_FUTURE⟩)], 60, ["r2"], 0⟩).1).cycle :=
  ((c3_refresh_spec 61
      ⟨[("r1", ⟨false, some 60⟩), ("r2", ⟨true, some UNIMAGINEABLE_FUTURE⟩)], 60, ["r2"], 0⟩
      (by
        intro p hp
        simp only [List.mem_cons, List.mem_singleton] at hp
        rcases hp with h | h | h
        · subst h
          exact ⟨60, rfl, by intro hc; simp at hc, fun _ => by decide⟩
        · subst h
          exact ⟨UNIMAGINEABLE_FUTURE, rfl, fun _ => rfl, by intro hc; simp at hc⟩
        · cases h)).2
    (by decide)).2.2.2.2 "r1" 60 (by decide) (by decide)

theorem rl_cons_unavail_none (now acc : Nat) (a : String) (rest : List (String × ReplicaStat)) :
    SlavesProcessor.refreshLoop now ((a, ⟨false, none⟩) :: rest) acc
      = ((a, ⟨false, none⟩) :: rest, acc, true) := by
  simp [SlavesProcessor.refreshLoop]

theorem rl_cons_avail_none (now acc : Nat) (a : String) (rest : List (String × ReplicaStat)) :
    SlavesProcessor.refreshLoop now ((a, ⟨true, none⟩) :: rest) acc
      = ((a, ⟨true, none⟩) :: rest, acc, true) := by
  simp [SlavesProcessor.refreshLoop]

theorem keys_refreshLoop (now : Nat) (r : List (String × ReplicaStat)) (acc : Nat) :
    ((SlavesProcessor.refreshLoop now r acc).1).map Prod.fst = r.map Prod.fst := by
  induction r generalizing acc with
  | nil => rfl
  | cons p rest ih =>
    obtain ⟨a, b, orc⟩ := p
    cases b with
    | false =>
      cases orc with
      | none => rw [rl_cons_unavail_none]
      | some rc =>
        by_cases hlt : rc < now
        · rw [rl_cons_renew now acc rc a rest hlt]
          simp only [List.map_cons, ih acc]
        · rw [rl_cons_wait now acc rc a rest hlt]
          simp only [List.map_cons, ih (Nat.min acc rc)]
    | true =>
      cases orc with
      | none => rw [rl_cons_avail_none]
      | some rc =>
        rw [rl_cons_avail now acc rc a rest]
        simp only [List.map_cons, ih (Nat.min acc rc)]

theorem lookup_refreshLoop_frozen (now : Nat) (id : String) (d : Nat)
    (r : List (String × ReplicaStat)) (acc : Nat)
    (h : lookupDb id r = some ⟨false, some d⟩) (hd : ¬ d < now) :
    lookupDb id ((SlavesProcessor.refreshLoop now r acc).1) = some ⟨false, some d⟩ := by
  induction r generalizing acc with
  | nil => simp [lookupDb] at h
  | cons p rest ih =>
    obtain ⟨a, b, orc⟩ := p
    by_cases ha : a = id
    · subst ha
      have hb : (⟨b, orc⟩ : ReplicaStat) = ⟨false, some d⟩ := by
        simpa [lookupDb] using h
      have hb1 : b = false := congrArg ReplicaStat.available hb
      have hb2 : orc = some d := congrArg ReplicaStat.reconnect hb
      subst hb1
      subst hb2
      rw [rl_cons_wait now acc d a rest hd]
      simp [lookupDb]
    · have hr : lookupDb id rest = some ⟨false, some d⟩ := by
        simpa [lookupDb, ha] using h
      cases b with
      | false =>
        cases orc with
        | none =>
          rw [rl_cons_unavail_none]
          exact h
        | some rc =>
          by_cases hlt : rc < now
          · rw [rl_cons_renew now acc rc a rest hlt]
            simpa [lookupDb, ha] using ih acc hr
          · rw [rl_cons_wait now acc rc a rest hlt]
            simpa [lookupDb, ha] using ih (Nat.min acc rc) hr
      | true =>
        cases orc with
        | none =>
          rw [rl_cons_avail_none]
          exact h
        | some rc =>
          rw [rl_cons_avail now acc rc a rest]
          simpa [lookupDb, ha] using ih (Nat.min acc rc) hr

theorem refresh_stats_eq (now : Nat) (s : State) :
    ((SlavesProcessor.refresh_available now s).1).stats
      = (SlavesProcessor.refreshLoop now s.stats UNIMAGINEABLE_FUTURE).1 := by
  unfold SlavesProcessor.refresh_available
  dsimp only
  split
  · rfl
  · simp [reset_stats]

theorem refresh_cycle_cases (now : Nat) (s : State) :
    ((SlavesProcessor.refresh_available now s).1).cycle = s.cycle ∨
    ((SlavesProcessor.refresh_available now s).1).cycle
      = availableKeys ((SlavesProcessor.refresh_available now s).1).stats := by
  rw [refresh_stats_eq]
  unfold SlavesProcessor.refresh_available
  dsimp only
  split
  · left
    rfl
  · right
    simp [reset_cycle]

theorem refresh_excl (now : Nat) (id : String) (d : Nat) (s : State)
    (h1 : lookupDb id s.stats = some ⟨false, some d⟩) (hd : ¬ d < now)
    (h3 : id ∉ s.cycle) (h4 : (s.stats.map Prod.fst).Nodup) :
    lookupDb id ((SlavesProcessor.refresh_available now s).1).stats = some ⟨false, some d⟩ ∧
    id ∉ ((SlavesProcessor.refresh_available now s).1).cycle ∧
    (((SlavesProcessor.refresh_available now s).1).stats.map Prod.fst).Nodup := by
  have hlk : lookupDb id ((SlavesProcessor.refresh_available now s).1).stats
      = some ⟨false, some d⟩ := by
    rw [refresh_stats_eq]
    exact lookup_refreshLoop_frozen now id d s.stats UNIMAGINEABLE_FUTURE h1 hd
  have hnd : (((SlavesProcessor.refresh_available now s).1).stats.map Prod.fst).Nodup := by
    rw [refresh_stats_eq, keys_refreshLoop]
    exact h4
  refine ⟨hlk, ?_, hnd⟩
  rcases refresh_cycle_cases now s with hc | hc
  · rw [hc]
    exact h3
  · rw [hc]
    exact not_mem_availableKeys id ⟨false, some d⟩ _ hnd hlk rfl

theorem maybe_refresh_excl (now : Nat) (id : String) (d : Nat) (s : State)
    (h1 : lookupDb id s.stats = some ⟨false, some d⟩) (hd : ¬ d < now)
    (h3 : id ∉ s.cycle) (h4 : (s.stats.map Prod.fst).Nodup) :
    lookupDb id ((SlavesProcessor.maybe_refresh now s).1).stats = some ⟨false, some d⟩ ∧
    id ∉ ((SlavesProcessor.maybe_refresh now s).1).cycle ∧
    (((SlavesProcessor.maybe_refresh now s).1).stats.map Prod.fst).Nodup := by
  unfold SlavesProcessor.maybe_refresh
  split
  · exact refresh_excl now id d s h1 hd h3 h4
  · exact ⟨h1, h3, h4⟩

theorem getD_mod_mem (l : List String) (i : Nat) (h : ¬ l.isEmpty) :
    l.getD (i % l.length) DEFAULT_DB_ALIAS ∈ l := by
  have hl : 0 < l.length := by
    cases l with
    | nil => simp at h
    | cons x xs => simp
  have hm : i % l.length < l.length := Nat.mod_lt _ hl
  rw [List.getD_eq_getElem l _ hm]
  exact List.getElem_mem hm

theorem cycleNext_mem (s : State) (h : ¬ s.cycle.isEmpty) :
    (SlavesProcessor.cycleNext s).1 ∈ s.cycle := by
  unfold SlavesProcessor.cycleNext
  rw [if_neg h]
  exact getD_mod_mem s.cycle s.cursor h

theorem disable_excl (rt now : Nat) (al id : String) (d : Nat) (s : State)
    (hne : al ≠ id)
    (h1 : lookupDb id s.stats = some ⟨false, some d⟩)
    (h3 : id ∉ s.cycle) (h4 : (s.stats.map Prod.fst).Nodup) :
    lookupDb id ((SlavesProcessor.disable_connection rt now al s).1).stats
      = some ⟨false, some d⟩ ∧
    id ∉ ((SlavesProcessor.disable_connection rt now al s).1).cycle ∧
    (((SlavesProcessor.disable_connection rt now al s).1).stats.map Prod.fst).Nodup := by
  cases hl : lookupDb al s.stats with
  | none =>
    rw [disable_notfound rt now al s hl]
    exact ⟨h1, h3, h4⟩
  | some st =>
    have hst := disable_found_stats rt now al s st hl
    have hcy := disable_found_cycle rt now al s st hl
    have hlk : lookupDb id ((SlavesProcessor.disable_connection rt now al s).1).stats
        = some ⟨false, some d⟩ := by
      rw [hst, lookup_updateDb_ne al id _ s.stats hne]
      exact h1
    have hnd : (((SlavesProcessor.disable_connection rt now al s).1).stats.map Prod.fst).Nodup := by
      rw [hst, keys_updateDb]
      exact h4
    refine ⟨hlk, ?_, hnd⟩
    rw [hcy, ← hst]
    exact not_mem_availableKeys id ⟨false, some d⟩ _ hnd hlk rfl

theorem get_slave_excl_step (rt now d : Nat) (id : String) (probe : String → Bool) (s : State)
    (hne : id ≠ DEFAULT_DB_ALIAS)
    (h1 : lookupDb id s.stats = some ⟨false, some d⟩)
    (h3 : id ∉ s.cycle) (h4 : (s.stats.map Prod.fst).Nodup)
    (hnow : now < d) :
    (SlavesProcessor.get_slave rt now probe s).2 ≠ Except.ok id ∧
    lookupDb id ((SlavesProcessor.get_slave rt now probe s).1).stats = some ⟨false, some d⟩ ∧
    id ∉ ((SlavesProcessor.get_slave rt now probe s).1).cycle ∧
    (((SlavesProcessor.get_slave rt now probe s).1).stats.map Prod.fst).Nodup := by
  have hd : ¬ d < now := Nat.lt_asymm hnow
  obtain ⟨hm1, hm3, hm4⟩ := maybe_refresh_excl now id d s h1 hd h3 h4
  unfold SlavesProcessor.get_slave
  dsimp only
  split
  · exact ⟨fun hcon => Except.noConfusion hcon, hm1, hm3, hm4⟩
  · have hcand : (SlavesProcessor.cycleNext (SlavesProcessor.maybe_refresh now s).1).1 ≠ id := by
      by_cases hc : ((SlavesProcessor.maybe_refresh now s).1).cycle.isEmpty
      · have := cycleNext_empty (SlavesProcessor.maybe_refresh now s).1
          (List.isEmpty_iff.mp hc)
        rw [this]
        exact fun hcon => hne hcon.symm
      · intro hcon
        exact hm3 (hcon ▸ cycleNext_mem (SlavesProcessor.maybe_refresh now s).1 hc)
    have hcst := cycleNext_stats (SlavesProcessor.maybe_refresh now s).1
    have hccy := cycleNext_cycle (SlavesProcessor.maybe_refresh now s).1
    split
    · refine ⟨?_, by rw [hcst]; exact hm1, by rw [hccy]; exact hm3, by rw [hcst]; exact hm4⟩
      intro hcon
      exact hcand (Except.ok.inj hcon)
    · obtain ⟨hd1, hd3, hd4⟩ := disable_excl rt now _ id d
        ((SlavesProcessor.cycleNext (SlavesProcessor.maybe_refresh now s).1).2) hcand
        (by rw [hcst]; exact hm1) (by rw [hccy]; exact hm3) (by rw [hcst]; exact hm4)
      split
      · exact ⟨fun hcon => Except.noConfusion hcon, hd1, hd3, hd4⟩
      · refine ⟨?_, hd1, hd3, hd4⟩
        intro hcon
        exact hne (Except.ok.inj hcon).symm

theorem runCalls_excl (rt d : Nat) (id : String) (hne : id ≠ DEFAULT_DB_ALIAS)
    (calls : List (Nat × (String → Bool))) (s : State)
    (h1 : lookupDb id s.stats = some ⟨false, some d⟩)
    (h3 : id ∉ s.cycle) (h4 : (s.stats.map Prod.fst).Nodup)
    (hc : ∀ c ∈ calls, c.1 < d) :
    Except.ok id ∉ (runCalls rt calls s).1 := by
  induction calls generalizing s with
  | nil => simp [runCalls]
  | cons c cs ih =>
    obtain ⟨hs1, hs2, hs3, hs4⟩ := get_slave_excl_step rt c.1 d id c.2 s hne h1 h3 h4
      (hc c (List.mem_cons_self c cs))
    intro hmem
    simp only [runCalls, List.mem_cons] at hmem
    rcases hmem with hh | ht
    · exact hs1 hh.symm
    · exact ih _ hs2 hs3 hs4 (fun q hq => hc q (List.mem_cons_of_mem c hq)) ht

/-- Claim C2: exclusion window.  After `disable_connection id` at time `now`,
no `get_slave` call at a time inside the open window
`(now, now + rt)` returns `id`, whatever its probe oracle: the replica
stays unavailable with its recorded reconnect time, and never re-enters
the cycle, across the whole sequence of calls. -/
theorem c2_exclusion_window (rt now : Nat) (id : String) (s0 : State)
    (calls : List (Nat × (String → Bool)))
    (hid : lookupDb id s0.stats ≠ none)
    (hne : id ≠ DEFAULT_DB_ALIAS)
    (hnodup : (s0.stats.map Prod.fst).Nodup)
    (hcalls : ∀ c ∈ calls, now < c.1 ∧ c.1 < now + rt) :
    Except.ok id ∉ (runCalls rt calls ((SlavesProcessor.disable_connection rt now id s0).1)).1 := by
  obtain ⟨st, hst⟩ := Option.ne_none_iff_exists.mp hid
  have h1 : lookupDb id ((SlavesProcessor.disable_connection rt now id s0).1).stats
      = some ⟨false, some (now + rt)⟩ := by
    rw [disable_found_stats rt now id s0 st hst.symm, lookup_updateDb_self, hst.symm]
    rfl
  have h4 : (((SlavesProcessor.disable_connection rt now id s0).1).stats.map Prod.fst).Nodup := by
    rw [disable_found_stats rt now id s0 st hst.symm, keys_updateDb]
    exact hnodup
  have h3 : id ∉ ((SlavesProcessor.disable_connection rt now id s0).1).cycle := by
    rw [disable_found_cycle rt now id s0 st hst.symm,
      ← disable_found_stats rt now id s0 st hst.symm]
    exact not_mem_availableKeys id ⟨false, some (now + rt)⟩ _ h4 h1 rfl
  exact runCalls_excl rt (now + rt) id hne calls _ h1 h3 h4
    (fun c hc => (hcalls c hc).2)

/-- Claim C2 witness: two replicas, `s1` disabled at time 0 with backoff 60;
a call at time 1 never returns `s1`. -/
theorem c2_exclusion_window_w :
    Except.ok "s1" ∉ (runCalls 60 [(1, fun _ => true)]
      ((SlavesProcessor.disable_connection 60 0 "s1" (initState ["s1", "s2"])).1)).1 :=
  c2_exclusion_window 60 0 "s1" (initState ["s1", "s2"]) [(1, fun _ => true)]
    (by decide) (by decide) (by decide)
    (by
      intro c hc
      rw [List.mem_singleton] at hc
      subst hc
      exact ⟨Nat.zero_lt_one, by decide⟩)

theorem mem_updateDb (a : String) (st : ReplicaStat) (r : List (String × ReplicaStat))
    (p : String × ReplicaStat) (h : p ∈ updateDb a st r) : p ∈ r ∨ p = (a, st) := by
  unfold updateDb at h
  rcases List.mem_map.mp h with ⟨q, hq, hqp⟩
  by_cases hqa : q.1 = a
  · right
    rw [← hqp, if_pos hqa]
  · left
    rw [← hqp, if_neg hqa]
    exact hq

theorem mem_refreshLoop (now : Nat) (r : List (String × ReplicaStat)) (acc : Nat)
    (p : String × ReplicaStat) (h : p ∈ (SlavesProcessor.refreshLoop now r acc).1) :
    p ∈ r ∨ p.2 = ⟨true, some UNIMAGINEABLE_FUTURE⟩ := by
  induction r generalizing acc with
  | nil =>
    rw [rl_nil] at h
    cases h
  | cons q rest ih =>
    obtain ⟨a, b, orc⟩ := q
    cases b with
    | false =>
      cases orc with
      | none =>
        rw [rl_cons_unavail_none] at h
        exact Or.inl h
      | some rc =>
        by_cases hlt : rc < now
        · rw [rl_cons_renew now acc rc a rest hlt] at h
          rcases List.mem_cons.mp h with hh | ht
          · right
            rw [hh]
          · rcases ih acc ht with hin | hnew
            · exact Or.inl (List.mem_cons_of_mem _ hin)
            · exact Or.inr hnew
        · rw [rl_cons_wait now acc rc a rest hlt] at h
          rcases List.mem_cons.mp h with hh | ht
          · exact Or.inl (hh ▸ List.mem_cons_self _ _)
          · rcases ih (Nat.min acc rc) ht with hin | hnew
            · exact Or.inl (List.mem_cons_of_mem _ hin)
            · exact Or.inr hnew
    | true =>
      cases orc with
      | none =>
        rw [rl_cons_avail_none] at h
        exact Or.inl h
      | some rc =>
        rw [rl_cons_avail now acc rc a rest] at h
        rcases List.mem_cons.mp h with hh | ht
        · exact Or.inl (hh ▸ List.mem_cons_self _ _)
        · rcases ih (Nat.min acc rc) ht with hin | hnew
          · exact Or.inl (List.mem_cons_of_mem _ hin)
          · exact Or.inr hnew

theorem availInv_init (cfg : List String) : AvailInv (initState cfg) := by
  intro p hp _
  unfold initState at hp
  rw [reset_stats] at hp
  rcases List.mem_map.mp hp with ⟨db, _, hdb⟩
  left
  rw [← hdb]

theorem availInv_disable (rt now : Nat) (al : String) (s : State) (h : AvailInv s) :
    AvailInv ((SlavesProcessor.disable_connection rt now al s).1) := by
  cases hl : lookupDb al s.stats with
  | none =>
    rw [disable_notfound rt now al s hl]
    exact h
  | some st =>
    intro p hp hav
    rw [disable_found_stats rt now al s st hl] at hp
    rcases mem_updateDb al _ s.stats p hp with hin | hnew
    · exact h p hin hav
    · rw [hnew] at hav
      cases hav

theorem availInv_refresh (now : Nat) (s : State) (h : AvailInv s) :
    AvailInv ((SlavesProcessor.refresh_available now s).1) := by
  intro p hp hav
  rw [refresh_stats_eq] at hp
  rcases mem_refreshLoop now s.stats UNIMAGINEABLE_FUTURE p hp with hin | hnew
  · exact h p hin hav
  · right
    rw [hnew]

theorem availInv_maybe_refresh (now : Nat) (s : State) (h : AvailInv s) :
    AvailInv ((SlavesProcessor.maybe_refresh now s).1) := by
  unfold SlavesProcessor.maybe_refresh
  split
  · exact availInv_refresh now s h
  · exact h

theorem availInv_get_slave (rt now : Nat) (probe : String → Bool) (s : State) (h : AvailInv s) :
    AvailInv ((SlavesProcessor.get_slave rt now probe s).1) := by
  have hm := availInv_maybe_refresh now s h
  have hcst := cycleNext_stats (SlavesProcessor.maybe_refresh now s).1
  have hc : AvailInv ((SlavesProcessor.cycleNext (SlavesProcessor.maybe_refresh now s).1).2) := by
    intro p hp hav
    rw [hcst] at hp
    exact hm p hp hav
  unfold SlavesProcessor.get_slave
  dsimp only
  split
  · exact hm
  · split
    · exact hc
    · split
      · exact availInv_disable rt now _ _ hc
      · exact availInv_disable rt now _ _ hc

/-- Claim C10: in every state reachable from the initial all-available state, a
replica whose available flag is true either has no recorded reconnect
time at all (never disabled) or carries the unbounded-future sentinel,
re-admission having overwritten its reconnect time with the sentinel. -/
theorem reachable_availInv (rt : Nat) (s : State) (h : Reachable rt s) : AvailInv s := by
  induction h with
  | init cfg => exact availInv_init cfg
  | disable s0 now al _ ih => exact availInv_disable rt now al s0 ih
  | refresh s0 now _ ih => exact availInv_refresh now s0 ih
  | get s0 now probe _ ih => exact availInv_get_slave rt now probe s0 ih

theorem c10_available_sentinel (rt : Nat) (s : State) (h : Reachable rt s)
    (p : String × ReplicaStat) (hp : p ∈ s.stats) (hav : p.2.available = true) :
    p.2.reconnect = none ∨ p.2.reconnect = some UNIMAGINEABLE_FUTURE :=
  reachable_availInv rt s h p hp hav

/-- Claim C10 witness: the invariant instantiated at the state in which the
single replica was disabled at time 0 and re-admitted by the refresh at
time 3601, leaving it available with the sentinel reconnect time. -/
theorem c10_available_sentinel_w :
    (("s1", (⟨true, some UNIMAGINEABLE_FUTURE⟩ : ReplicaStat)).2).reconnect = none ∨
    (("s1", (⟨true, some UNIMAGINEABLE_FUTURE⟩ : ReplicaStat)).2).reconnect
      = some UNIMAGINEABLE_FUTURE :=
  c10_available_sentinel 3600
    ((SlavesProcessor.refresh_available 3601
      ((SlavesProcessor.disable_connection 3600 0 "s1" (initState ["s1"])).1)).1)
    (Reachable.refresh _ 3601 (Reachable.disable _ 0 "s1" (Reachable.init ["s1"])))
    ("s1", ⟨true, some UNIMAGINEABLE_FUTURE⟩) (by decide) (by decide)
